import Mathlib

set_option maxRecDepth 8000

/-!
Verification of the analytics aggregation and export pipeline of the
flexr-feedback frontend: tier classification, export deduplication,
CSV/PDF export shapes, dashboard statistics, pagination-total inference
and the auth current-user flow, shallowly embedded from the TypeScript
sources (`LowRelevanceAnalysis`, `NoResultAnalysis`, `UserManagement`,
`QALogs`, `services/api.ts`).

Scores are modelled as exact rationals; `Number.prototype.toFixed(4)`
becomes rounding to four decimal places; JavaScript strings become Lean
strings (`substring(0, n)` takes the first `n` characters).
-/

namespace FlexrFeedback

/-- JS `s.substring(0, n)`: the first `n` characters of `s`. -/
def substringTo (s : String) (n : Nat) : String := ⟨s.data.take n⟩

/-- Left-pad the decimal digits of `m` to four places, as in `toFixed(4)`
output for the fractional part. -/
def pad4 (m : Nat) : String :=
  if m < 10 then "000" ++ toString m
  else if m < 100 then "00" ++ toString m
  else if m < 1000 then "0" ++ toString m
  else toString m

/-- `⌊s * q + 1/2⌋`: the integer nearest to `s * q` with halves rounded
up, computed directly on the numerator and denominator of `q`. -/
def roundScaled (s : ℤ) (q : ℚ) : ℤ :=
  Int.fdiv (2 * (s * q.num) + (q.den : ℤ)) (2 * (q.den : ℤ))

/-- JS `x.toFixed(4)` for a non-negative score: round to the nearest
multiple of `1/10000` and print with exactly four decimal digits. -/
def toFixed4 (q : ℚ) : String :=
  let n : ℤ := roundScaled 10000 q
  toString (n / 10000) ++ "." ++ pad4 (n % 10000).toNat

/-- One entry of `summary.results` in the low-relevance view
(`LowRelevanceResult` in `types.ts`, with the supplementary metadata
fields the export code reads). -/
structure LowRelevanceResult where
  content : Option String
  relevance_score : ℚ
  page_id : String
  section_name : String
  title : String
  created_at : String
deriving DecidableEq, Repr

/-- One group of the low-relevance list response
(`LowRelevanceSummary` in `types.ts`). -/
structure LowRelevanceSummary where
  query : String
  count : Nat
  avg_relevance_score : ℚ
  results : List LowRelevanceResult
deriving DecidableEq, Repr

/-- A detail record paired with the query of the summary it came from:
the unit the export loops iterate over
(`summary.results.forEach(detail => ...)`). -/
structure KeyedRecord where
  query : String
  detail : LowRelevanceResult
deriving DecidableEq, Repr

/-- The flattened iteration order of the export loops: all detail
records of all summaries, each tagged with its summary's query. -/
def flattenPairs (data : List LowRelevanceSummary) : List KeyedRecord :=
  data.flatMap fun s => s.results.map fun d => ⟨s.query, d⟩

/-- The part of the dedup key contributed by the record content:
`detail.content?.substring(0, 200)` interpolated into a template
string, so a missing content renders as the string `undefined`. -/
def contentKeyPart : Option String → String
  | none => "undefined"
  | some s => substringTo s 200

/-- The dedup key built in `handleExportPdf`:
`` `${summary.query}|${detail.content?.substring(0,200)}|${detail.relevance_score.toFixed(4)}` ``. -/
def answerKey (r : KeyedRecord) : String :=
  r.query ++ "|" ++ contentKeyPart r.detail.content ++ "|" ++ toFixed4 r.detail.relevance_score

/-- The composite key the specification describes:
the tuple `(query, content.slice(0,200), score.round(4))`, kept as a
tuple rather than a delimiter-joined string. -/
def specCompositeKey (r : KeyedRecord) : String × Option String × ℤ :=
  (r.query, r.detail.content.map (substringTo · 200), roundScaled 10000 r.detail.relevance_score)

/-- The `seenAnswers` loop of `handleExportPdf`: walk the records in
order, keep a record when its `answerKey` has not been seen, otherwise
drop it. -/
def dedupeGo (seen : List String) : List KeyedRecord → List KeyedRecord
  | [] => []
  | r :: rs =>
    if answerKey r ∈ seen then dedupeGo seen rs
    else r :: dedupeGo (answerKey r :: seen) rs

/-- The export deduplication with an initially empty `seenAnswers` set. -/
def dedupe (l : List KeyedRecord) : List KeyedRecord := dedupeGo [] l

/-- The four score tiers of the PDF summary section, named after the
row labels of `scoreTiers` in `handleExportPdf`. -/
inductive TierLabel where
  | tier06to065
  | tier05to06
  | tier04to05
  | tierBelow04
deriving DecidableEq, Repr

/-- The tier assignment of `handleExportPdf`:
`if (score >= 0.6) ... else if (score >= 0.5) ... else if (score >= 0.4) ... else ...`. -/
def classify (score : ℚ) : TierLabel :=
  if score ≥ 0.6 then .tier06to065
  else if score ≥ 0.5 then .tier05to06
  else if score ≥ 0.4 then .tier04to05
  else .tierBelow04

/-- JS `Set.add`: append the query unless it is already present,
keeping insertion order. -/
def insertNew (qs : List String) (q : String) : List String :=
  if q ∈ qs then qs else qs ++ [q]

/-- The contents of a JS `Set` of strings after inserting the elements
of `l` in order: first occurrences, in order. -/
def dedupFirst (l : List String) : List String := l.foldl insertNew []

/-- The `scoreTiers` cell for one tier: the distinct queries (in first
insertion order) of the records whose score classifies into that tier. -/
def tierCell (t : TierLabel) (l : List KeyedRecord) : List String :=
  dedupFirst ((l.filter fun r => decide (classify r.detail.relevance_score = t)).map (·.query))

/-- The row order of the `scoreTiers` object literal. -/
def tierLabels : List TierLabel :=
  [.tier06to065, .tier05to06, .tier04to05, .tierBelow04]

/-- The body of the PDF tier-distribution table: one row per tier
label, each row holding the tier's distinct-query cell, built over all
fetched records (`allData.data` flattened). -/
def tierRows (data : List LowRelevanceSummary) : List (TierLabel × List String) :=
  tierLabels.map fun t => (t, tierCell t (flattenPairs data))

/-- The `Content` column of the CSV export:
`detail.content?.substring(0, 200) || ''`. -/
def csvContent : Option String → String
  | none => ""
  | some s => substringTo s 200

/-- One row of the CSV export of `handleExportCsv`, with its fixed
column order. Date formatting is kept as the stored timestamp string. -/
structure CsvRow where
  query : String
  relevance_score : ℚ
  page_id : String
  section_name : String
  title : String
  created_at : String
  content : String
deriving DecidableEq, Repr

/-- The row list of `handleExportCsv`: `result.data.flatMap(summary =>
summary.results.map(detail => ({...})))` — note: no deduplication is
applied on this path. -/
def handleExportCsvRows (data : List LowRelevanceSummary) : List CsvRow :=
  data.flatMap fun s => s.results.map fun d =>
    ⟨s.query, d.relevance_score, d.page_id, d.section_name, d.title,
      d.created_at, csvContent d.content⟩

/-- One entry of the no-result summary list (`NoResultSummary`), with
the `last_occurred_at` field the page reads. -/
structure NoResultSummary where
  query : String
  count : Nat
  last_occurred_at : String
deriving DecidableEq, Repr

/-- The four statistics computed by `loadData` in `NoResultAnalysis`. -/
structure NoResultStats where
  totalQueries : Nat
  uniqueQueries : Nat
  avgOccurrence : ℚ
  topQueryCount : Nat
deriving DecidableEq, Repr

/-- JS `parseFloat(x.toFixed(1))`: round to one decimal place. -/
def roundTo1 (q : ℚ) : ℚ := (roundScaled 10 q : ℚ) / 10

/-- The statistics block of `loadData` in `NoResultAnalysis`:
`total = result.reduce((sum, item) => sum + item.count, 0)`,
`unique = result.length`,
`topCount = result.length > 0 ? result[0].count : 0`,
`avgOccurrence = unique > 0 ? parseFloat((total/unique).toFixed(1)) : 0`. -/
def computeStats (result : List NoResultSummary) : NoResultStats :=
  let total := result.foldl (fun sum item => sum + item.count) 0
  let unique := result.length
  let topCount := ((result.head?.map (·.count)).getD 0)
  { totalQueries := total
    uniqueQueries := unique
    avgOccurrence := if unique > 0 then roundTo1 ((total : ℚ) / (unique : ℚ)) else 0
    topQueryCount := topCount }

/-- The pagination total set by `fetchUsers` in `UserManagement`:
`result.length < pageSize ? skip + result.length : skip + result.length + 10`. -/
def fetchUsersTotal (skip pageSize resultLen : Nat) : Nat :=
  if resultLen < pageSize then skip + resultLen else skip + resultLen + 10

/-- Outcome of the HTTP request `api.get("/api/v1/me")`: either a
response body or a thrown error. -/
inductive FetchOutcome (α : Type) where
  | success (a : α)
  | failure
deriving DecidableEq, Repr

/-- JS truthiness of the stored `authToken` (`null` and `""` are falsy). -/
def tokenPresent : Option String → Bool
  | none => false
  | some s => !s.isEmpty

/-- `authAPI.getCurrentUser`: returns the parsed body on success and
`null` otherwise; the second component records whether an HTTP request
was issued (`if (!authToken) return null` short-circuits before any
request). -/
def getCurrentUser {α : Type} (authToken : Option String)
    (fetch : FetchOutcome α) : Option α × Bool :=
  if tokenPresent authToken then
    match fetch with
    | .success u => (some u, true)
    | .failure => (none, true)
  else (none, false)

/-- A concrete score of `0.5`, given by numerator and denominator so
that concrete evaluation stays within kernel reduction. -/
def scoreHalf : ℚ := ⟨1, 2, by decide, by decide⟩

/-- A concrete score of `0.59996`: strictly below the `0.6` tier
boundary, yet printed as `0.6000` by `toFixed(4)`. -/
def scoreJustBelow06 : ℚ := ⟨14999, 25000, by decide, by decide⟩

/-- A concrete score of `0.60004`: at least the `0.6` tier boundary,
and printed as `0.6000` by `toFixed(4)`. -/
def scoreJustAbove06 : ℚ := ⟨15001, 25000, by decide, by decide⟩

lemma dedupeGo_sublist (seen : List String) (l : List KeyedRecord) :
    List.Sublist (dedupeGo seen l) l := by
  induction l generalizing seen with
  | nil => simp [dedupeGo]
  | cons r rs ih =>
    unfold dedupeGo
    split_ifs
    · exact (ih seen).trans (List.sublist_cons_self r rs)
    · exact (ih (answerKey r :: seen)).cons₂ r

lemma mem_keys_dedupeGo (seen : List String) (l : List KeyedRecord) (k : String) :
    k ∈ (dedupeGo seen l).map answerKey ↔ k ∈ l.map answerKey ∧ k ∉ seen := by
  induction l generalizing seen with
  | nil => simp [dedupeGo]
  | cons r rs ih =>
    unfold dedupeGo
    split_ifs with h
    · rw [ih]
      simp only [List.map_cons, List.mem_cons]
      constructor
      · rintro ⟨hm, hs⟩; exact ⟨Or.inr hm, hs⟩
      · rintro ⟨hm | hm, hs⟩
        · exact absurd (hm ▸ h) hs
        · exact ⟨hm, hs⟩
    · rw [List.map_cons, List.mem_cons, List.map_cons, List.mem_cons, ih]
      constructor
      · rintro (rfl | ⟨hm, hs⟩)
        · exact ⟨Or.inl rfl, ‹answerKey r ∉ seen›⟩
        · exact ⟨Or.inr hm, fun hk => hs (List.mem_cons_of_mem _ hk)⟩
      · rintro ⟨rfl | hm, hs⟩
        · exact Or.inl rfl
        · by_cases hkr : k = answerKey r
          · exact Or.inl hkr
          · refine Or.inr ⟨hm, fun hk => ?_⟩
            rcases List.mem_cons.mp hk with h1 | h1
            · exact hkr h1
            · exact hs h1

lemma nodup_keys_dedupeGo (seen : List String) (l : List KeyedRecord) :
    ((dedupeGo seen l).map answerKey).Nodup := by
  induction l generalizing seen with
  | nil => simp [dedupeGo]
  | cons r rs ih =>
    unfold dedupeGo
    split_ifs
    · exact ih seen
    · simp only [List.map_cons, List.nodup_cons]
      refine ⟨fun hk => ?_, ih (answerKey r :: seen)⟩
      exact ((mem_keys_dedupeGo _ _ _).mp hk).2 (List.mem_cons_self _ _)

lemma find_dedupeGo (seen : List String) (l : List KeyedRecord) :
    ∀ r ∈ dedupeGo seen l, answerKey r ∉ seen ∧
      l.find? (fun x => answerKey x == answerKey r) = some r := by
  induction l generalizing seen with
  | nil => intro r hr; simp [dedupeGo] at hr
  | cons a rs ih =>
    intro r hr
    unfold dedupeGo at hr
    by_cases h : answerKey a ∈ seen
    · rw [if_pos h] at hr
      obtain ⟨hs, hf⟩ := ih seen r hr
      have hne : answerKey a ≠ answerKey r := fun he => hs (he ▸ h)
      refine ⟨hs, ?_⟩
      rw [List.find?_cons_of_neg _ (by simpa using hne)]
      exact hf
    · rw [if_neg h] at hr
      rcases List.mem_cons.mp hr with rfl | hr'
      · exact ⟨h, by rw [List.find?_cons_of_pos _ (by simp)]⟩
      · obtain ⟨hs, hf⟩ := ih (answerKey a :: seen) r hr'
        have hne : answerKey a ≠ answerKey r := fun he => hs (he ▸ List.mem_cons_self _ _)
        refine ⟨fun hk => hs (List.mem_cons_of_mem _ hk), ?_⟩
        rw [List.find?_cons_of_neg _ (by simpa using hne)]
        exact hf

lemma dedupeGo_eq_self (seen : List String) (l : List KeyedRecord)
    (h1 : (l.map answerKey).Nodup) (h2 : ∀ k ∈ l.map answerKey, k ∉ seen) :
    dedupeGo seen l = l := by
  induction l generalizing seen with
  | nil => simp [dedupeGo]
  | cons r rs ih =>
    simp only [List.map_cons, List.nodup_cons] at h1
    unfold dedupeGo
    rw [if_neg (h2 _ (by simp))]
    congr 1
    refine ih _ h1.2 ?_
    intro k hk
    simp only [List.mem_cons, not_or]
    refine ⟨fun he => h1.1 (he ▸ hk), h2 _ (by simp [hk])⟩

lemma mem_foldl_insertNew (l : List String) (acc : List String) (q : String) :
    q ∈ l.foldl insertNew acc ↔ q ∈ acc ∨ q ∈ l := by
  induction l generalizing acc with
  | nil => simp
  | cons a as ih =>
    rw [List.foldl_cons, ih]
    unfold insertNew
    split_ifs with h
    · simp only [List.mem_cons]
      constructor
      · rintro (hq | hq)
        · exact Or.inl hq
        · exact Or.inr (Or.inr hq)
      · rintro (hq | rfl | hq)
        · exact Or.inl hq
        · exact Or.inl h
        · exact Or.inr hq
    · simp only [List.mem_append, List.mem_singleton, List.mem_cons]
      tauto

lemma nodup_foldl_insertNew (l : List String) (acc : List String)
    (h : acc.Nodup) : (l.foldl insertNew acc).Nodup := by
  induction l generalizing acc with
  | nil => exact h
  | cons a as ih =>
    rw [List.foldl_cons]
    refine ih _ ?_
    unfold insertNew
    split_ifs with ha
    · exact h
    · rw [List.nodup_append]
      exact ⟨h, List.nodup_singleton a, by simpa using ha⟩

lemma mem_dedupFirst (l : List String) (q : String) :
    q ∈ dedupFirst l ↔ q ∈ l := by
  rw [dedupFirst, mem_foldl_insertNew]; simp

lemma nodup_dedupFirst (l : List String) : (dedupFirst l).Nodup :=
  nodup_foldl_insertNew l [] List.nodup_nil

lemma dedupFirst_append_cons_of_mem (M1 M2 : List String) (q : String)
    (hq : q ∈ M1) : dedupFirst (M1 ++ q :: M2) = dedupFirst (M1 ++ M2) := by
  unfold dedupFirst
  rw [List.foldl_append, List.foldl_append, List.foldl_cons]
  have hmem : q ∈ M1.foldl insertNew [] := (mem_foldl_insertNew _ _ _).mpr (Or.inr hq)
  rw [insertNew, if_pos hmem]

/-- C2: for every score, tier classification assigns exactly one of the
four tiers; boundary values go to the higher (more relevant) adjacent
tier: scores `>= 0.6` to the top tier, `0.5 <= s < 0.6` to the second,
`0.4 <= s < 0.5` to the third, `s < 0.4` to the bottom; the tiers cover
all scores with no gaps or overlaps. -/
theorem classify_tier_partition (s : ℚ) :
    (classify s = .tier06to065 ↔ 0.6 ≤ s) ∧
    (classify s = .tier05to06 ↔ 0.5 ≤ s ∧ s < 0.6) ∧
    (classify s = .tier04to05 ↔ 0.4 ≤ s ∧ s < 0.5) ∧
    (classify s = .tierBelow04 ↔ s < 0.4) := by
  unfold classify
  split_ifs with h1 h2 h3
  · exact ⟨⟨fun _ => h1, fun _ => rfl⟩,
      ⟨fun h => absurd h (by decide), fun hc => absurd h1 (not_le.mpr hc.2)⟩,
      ⟨fun h => absurd h (by decide),
        fun hc => absurd h1 (not_le.mpr (hc.2.trans (by norm_num)))⟩,
      ⟨fun h => absurd h (by decide),
        fun hc => absurd h1 (not_le.mpr (hc.trans (by norm_num)))⟩⟩
  · have hlt : s < 0.6 := not_le.mp h1
    exact ⟨⟨fun h => absurd h (by decide), fun hc => absurd hc h1⟩,
      ⟨fun _ => ⟨h2, hlt⟩, fun _ => rfl⟩,
      ⟨fun h => absurd h (by decide), fun hc => absurd h2 (not_le.mpr hc.2)⟩,
      ⟨fun h => absurd h (by decide),
        fun hc => absurd h2 (not_le.mpr (hc.trans (by norm_num)))⟩⟩
  · have hlt5 : s < 0.5 := not_le.mp h2
    exact ⟨⟨fun h => absurd h (by decide), fun hc => absurd hc h1⟩,
      ⟨fun h => absurd h (by decide), fun hc => absurd hc.1 h2⟩,
      ⟨fun _ => ⟨h3, hlt5⟩, fun _ => rfl⟩,
      ⟨fun h => absurd h (by decide), fun hc => absurd h3 (not_le.mpr hc)⟩⟩
  · have hlt4 : s < 0.4 := not_le.mp h3
    exact ⟨⟨fun h => absurd h (by decide),
        fun hc => absurd (lt_of_le_of_lt hc hlt4) (by norm_num)⟩,
      ⟨fun h => absurd h (by decide),
        fun hc => absurd (lt_of_le_of_lt hc.1 hlt4) (by norm_num)⟩,
      ⟨fun h => absurd h (by decide),
        fun hc => absurd (lt_of_le_of_lt hc.1 hlt4) (by norm_num)⟩,
      ⟨fun _ => hlt4, fun _ => rfl⟩⟩

/-- Witness for `classify_tier_partition` at the boundary scores
`0.6`, `0.5`, `0.4` and at a bottom-tier score. -/
theorem classify_tier_partition_witness :
    classify 0.6 = .tier06to065 ∧ classify 0.5 = .tier05to06 ∧
    classify 0.4 = .tier04to05 ∧ classify 0.39 = .tierBelow04 :=
  ⟨(classify_tier_partition 0.6).1.mpr (by norm_num),
    (classify_tier_partition 0.5).2.1.mpr ⟨by norm_num, by norm_num⟩,
    (classify_tier_partition 0.4).2.2.1.mpr ⟨by norm_num, by norm_num⟩,
    (classify_tier_partition 0.39).2.2.2.mpr (by norm_num)⟩

/-- C7: summarizing an empty result set never fails: all four
statistics are zero, the guarded division and the guarded first-element
access being unreachable on empty input. -/
theorem computeStats_empty_zeroed :
    computeStats [] = ⟨0, 0, 0, 0⟩ := rfl

/-- C8: the user-listing pagination total is inferred from the current
page: when the returned row count is below the page size the total is
`skip + count`, otherwise it is strictly greater than `skip + count`. -/
theorem fetchUsersTotal_inferred (skip pageSize resultLen : Nat) :
    (resultLen < pageSize → fetchUsersTotal skip pageSize resultLen = skip + resultLen) ∧
    (¬ resultLen < pageSize → skip + resultLen < fetchUsersTotal skip pageSize resultLen) := by
  unfold fetchUsersTotal
  constructor
  · intro h; rw [if_pos h]
  · intro h; rw [if_neg h]; omega

/-- Witness for `fetchUsersTotal_inferred`: a short page at
`skip = 10, pageSize = 10, count = 3` and a full page at `count = 10`. -/
theorem fetchUsersTotal_inferred_witness :
    fetchUsersTotal 10 10 3 = 10 + 3 ∧ 10 + 10 < fetchUsersTotal 10 10 10 :=
  ⟨(fetchUsersTotal_inferred 10 10 3).1 (by decide),
    (fetchUsersTotal_inferred 10 10 10).2 (by decide)⟩

/-- C10: `getCurrentUser` returns null and issues no HTTP request when
no auth token is stored, and returns null rather than propagating an
exception when the request fails. -/
theorem getCurrentUser_null_paths (α : Type) (f : FetchOutcome α) (t : Option String) :
    getCurrentUser none f = (none, false) ∧
    (getCurrentUser t (FetchOutcome.failure : FetchOutcome α)).1 = none := by
  constructor
  · rfl
  · unfold getCurrentUser
    split_ifs <;> rfl

/-- Witness for `getCurrentUser_null_paths` with a numeric body and a
stored token. -/
theorem getCurrentUser_null_paths_witness :
    getCurrentUser none (FetchOutcome.success 5) = (none, false) ∧
    (getCurrentUser (some "tok") (FetchOutcome.failure : FetchOutcome Nat)).1 = none :=
  getCurrentUser_null_paths Nat (FetchOutcome.success 5) (some "tok")

/-- C5: the export deduplication is idempotent:
`dedupe (dedupe x) = dedupe x`. -/
theorem dedupe_idempotent (l : List KeyedRecord) :
    dedupe (dedupe l) = dedupe l := by
  unfold dedupe
  refine dedupeGo_eq_self [] (dedupeGo [] l) (nodup_keys_dedupeGo [] l) ?_
  intro k _
  simp

/-- Witness for `dedupe_idempotent` on a concrete two-record list. -/
theorem dedupe_idempotent_witness :
    dedupe (dedupe [⟨"a", ⟨none, scoreHalf, "p", "s", "t", "d"⟩⟩,
        ⟨"a", ⟨none, scoreHalf, "p", "s", "t", "d"⟩⟩]) =
      dedupe [⟨"a", ⟨none, scoreHalf, "p", "s", "t", "d"⟩⟩,
        ⟨"a", ⟨none, scoreHalf, "p", "s", "t", "d"⟩⟩] :=
  dedupe_idempotent _

/-- C1 (counterexample): two records with distinct composite keys
`(query, content.slice(0,200), score.round(4))` — the queries differ —
collide on the delimiter-joined key string (`"a" + "|" + "b|c"` equals
`"a|b" + "|" + "c"`), so the second record is dropped even though it is
the first record of its own composite key. -/
theorem dedupe_composite_key_counterexample :
    specCompositeKey ⟨"a", ⟨some "b|c", scoreHalf, "p1", "s1", "t1", "d1"⟩⟩ ≠
      specCompositeKey ⟨"a|b", ⟨some "c", scoreHalf, "p2", "s2", "t2", "d2"⟩⟩ ∧
    answerKey ⟨"a", ⟨some "b|c", scoreHalf, "p1", "s1", "t1", "d1"⟩⟩ =
      answerKey ⟨"a|b", ⟨some "c", scoreHalf, "p2", "s2", "t2", "d2"⟩⟩ ∧
    dedupe [⟨"a", ⟨some "b|c", scoreHalf, "p1", "s1", "t1", "d1"⟩⟩,
        ⟨"a|b", ⟨some "c", scoreHalf, "p2", "s2", "t2", "d2"⟩⟩] =
      [⟨"a", ⟨some "b|c", scoreHalf, "p1", "s1", "t1", "d1"⟩⟩] := by
  with_unfolding_all decide

/-- C1 (amended): the export deduplication keeps exactly the first
record observed for each key string
`query + "|" + content.slice(0,200) + "|" + score.toFixed(4)` and drops
every later record with the same key string, preserving the relative
order of the kept records: the output is a sublist of the input, its
key strings are pairwise distinct, every input key string survives, and
each kept record is the first input record bearing its key string. -/
theorem dedupe_keeps_first_per_key_string (l : List KeyedRecord) :
    List.Sublist (dedupe l) l ∧
    ((dedupe l).map answerKey).Nodup ∧
    (∀ r ∈ l, answerKey r ∈ (dedupe l).map answerKey) ∧
    (∀ r ∈ dedupe l, l.find? (fun x => answerKey x == answerKey r) = some r) := by
  refine ⟨dedupeGo_sublist [] l, nodup_keys_dedupeGo [] l, ?_, ?_⟩
  · intro r hr
    rw [dedupe, mem_keys_dedupeGo]
    exact ⟨List.mem_map_of_mem _ hr, by simp⟩
  · intro r hr
    exact (find_dedupeGo [] l r hr).2

/-- Witness for `dedupe_keeps_first_per_key_string` on a concrete
one-record list. -/
theorem dedupe_keeps_first_per_key_string_witness :
    answerKey ⟨"w1", ⟨some "c1", scoreHalf, "p", "s", "t", "d"⟩⟩ ∈
      (dedupe [⟨"w1", ⟨some "c1", scoreHalf, "p", "s", "t", "d"⟩⟩]).map answerKey ∧
    [⟨("w1" : String), (⟨some "c1", scoreHalf, "p", "s", "t", "d"⟩ : LowRelevanceResult)⟩].find?
        (fun x => answerKey x == answerKey ⟨"w1", ⟨some "c1", scoreHalf, "p", "s", "t", "d"⟩⟩) =
      some ⟨"w1", ⟨some "c1", scoreHalf, "p", "s", "t", "d"⟩⟩ :=
  ⟨(dedupe_keeps_first_per_key_string [⟨"w1", ⟨some "c1", scoreHalf, "p", "s", "t", "d"⟩⟩]).2.2.1
      _ (by with_unfolding_all decide),
    (dedupe_keeps_first_per_key_string [⟨"w1", ⟨some "c1", scoreHalf, "p", "s", "t", "d"⟩⟩]).2.2.2
      _ (by with_unfolding_all decide)⟩

/-- C4 (counterexample): a record whose composite key
`(query, content.slice(0,200), score.round(4))` is unique in the input
is nevertheless removed, because its delimiter-joined key string
collides with the other record's. -/
theorem dedupe_unique_composite_key_counterexample :
    ([⟨"x", ⟨some "y|z", scoreHalf, "p1", "s1", "t1", "d1"⟩⟩,
        ⟨"x|y", ⟨some "z", scoreHalf, "p2", "s2", "t2", "d2"⟩⟩].countP
      fun r => decide (specCompositeKey r =
        specCompositeKey ⟨"x|y", ⟨some "z", scoreHalf, "p2", "s2", "t2", "d2"⟩⟩)) = 1 ∧
    (⟨"x|y", ⟨some "z", scoreHalf, "p2", "s2", "t2", "d2"⟩⟩ : KeyedRecord) ∉
      dedupe [⟨"x", ⟨some "y|z", scoreHalf, "p1", "s1", "t1", "d1"⟩⟩,
        ⟨"x|y", ⟨some "z", scoreHalf, "p2", "s2", "t2", "d2"⟩⟩] := by
  with_unfolding_all decide

/-- C4 (amended): the export deduplication never increases the record
count, and a record whose key string (the delimiter-joined
query/content/score key) is unique among the input's key strings is
never removed. -/
theorem dedupe_length_le_and_unique_key_kept (l : List KeyedRecord) :
    (dedupe l).length ≤ l.length ∧
    (∀ r ∈ l, (l.countP fun x => answerKey x == answerKey r) = 1 → r ∈ dedupe l) := by
  constructor
  · exact (dedupeGo_sublist [] l).length_le
  · intro r hr hcount
    have hk : answerKey r ∈ (dedupe l).map answerKey := by
      rw [dedupe, mem_keys_dedupeGo]
      exact ⟨List.mem_map_of_mem _ hr, by simp⟩
    obtain ⟨r', hr', hkey⟩ := List.mem_map.mp hk
    have hfind := (find_dedupeGo [] l r' hr').2
    have hflen : (l.filter fun x => answerKey x == answerKey r).length = 1 := by
      rw [← List.countP_eq_length_filter]
      exact hcount
    obtain ⟨a, ha⟩ := List.length_eq_one.mp hflen
    have hrf : r ∈ l.filter fun x => answerKey x == answerKey r :=
      List.mem_filter.mpr ⟨hr, by simp⟩
    have hr'l : r' ∈ l := List.mem_of_find?_eq_some hfind
    have hr'f : r' ∈ l.filter fun x => answerKey x == answerKey r :=
      List.mem_filter.mpr ⟨hr'l, by simp [hkey]⟩
    rw [ha, List.mem_singleton] at hrf hr'f
    rw [hrf, ← hr'f]
    exact hr'

/-- Witness for `dedupe_length_le_and_unique_key_kept` on a concrete
two-record list whose second record has a unique key string. -/
theorem dedupe_length_le_and_unique_key_kept_witness :
    (dedupe [⟨"w2", ⟨some "ca", scoreHalf, "p", "s", "t", "d"⟩⟩,
        ⟨"w3", ⟨some "cb", scoreHalf, "p", "s", "t", "d"⟩⟩]).length ≤ 2 ∧
    (⟨"w3", ⟨some "cb", scoreHalf, "p", "s", "t", "d"⟩⟩ : KeyedRecord) ∈
      dedupe [⟨"w2", ⟨some "ca", scoreHalf, "p", "s", "t", "d"⟩⟩,
        ⟨"w3", ⟨some "cb", scoreHalf, "p", "s", "t", "d"⟩⟩] :=
  ⟨(dedupe_length_le_and_unique_key_kept [⟨"w2", ⟨some "ca", scoreHalf, "p", "s", "t", "d"⟩⟩,
      ⟨"w3", ⟨some "cb", scoreHalf, "p", "s", "t", "d"⟩⟩]).1,
    (dedupe_length_le_and_unique_key_kept [⟨"w2", ⟨some "ca", scoreHalf, "p", "s", "t", "d"⟩⟩,
      ⟨"w3", ⟨some "cb", scoreHalf, "p", "s", "t", "d"⟩⟩]).2
      _ (by with_unfolding_all decide) (by with_unfolding_all decide)⟩

/-- C3 (counterexample): the CSV export applies no deduplication, so on
a summary holding the same detail record twice it emits two rows while
the deduplicated record count is one. -/
theorem csv_dedup_count_counterexample :
    (handleExportCsvRows [⟨"q", 2, scoreHalf,
        [⟨some "c", scoreHalf, "p", "s", "t", "d"⟩,
          ⟨some "c", scoreHalf, "p", "s", "t", "d"⟩]⟩]).length ≠
      (dedupe (flattenPairs [⟨"q", 2, scoreHalf,
        [⟨some "c", scoreHalf, "p", "s", "t", "d"⟩,
          ⟨some "c", scoreHalf, "p", "s", "t", "d"⟩]⟩])).length := by
  with_unfolding_all decide

/-- C3 (amended): the CSV export emits exactly one data row per fetched
(pre-deduplication) detail record — its row count equals the number of
flattened records, not `len(dedupe(filtered_records))` — and the
content column is truncated to the first 200 characters. -/
theorem csv_one_row_per_fetched_record (data : List LowRelevanceSummary) :
    (handleExportCsvRows data).length = (flattenPairs data).length ∧
    ∀ row ∈ handleExportCsvRows data, row.content.length ≤ 200 := by
  constructor
  · induction data with
    | nil => rfl
    | cons s ss ih =>
      simp only [handleExportCsvRows, flattenPairs, List.flatMap_cons, List.length_append,
        List.length_map] at *
      omega
  · intro row hrow
    simp only [handleExportCsvRows, List.mem_flatMap, List.mem_map] at hrow
    obtain ⟨s, _, d, _, rfl⟩ := hrow
    cases hc : d.content with
    | none => simp [csvContent, hc]
    | some str =>
      simp only [csvContent, hc, substringTo, String.length]
      rw [List.length_take]
      exact min_le_left _ _

/-- Witness for `csv_one_row_per_fetched_record` on a concrete
single-summary input. -/
theorem csv_one_row_per_fetched_record_witness :
    (handleExportCsvRows [⟨"w4", 1, scoreHalf,
        [⟨some "cw", scoreHalf, "p", "s", "t", "d"⟩]⟩]).length =
      (flattenPairs [⟨"w4", 1, scoreHalf,
        [⟨some "cw", scoreHalf, "p", "s", "t", "d"⟩]⟩]).length ∧
    (⟨"w4", scoreHalf, "p", "s", "t", "d", "cw"⟩ : CsvRow).content.length ≤ 200 :=
  ⟨(csv_one_row_per_fetched_record [⟨"w4", 1, scoreHalf,
      [⟨some "cw", scoreHalf, "p", "s", "t", "d"⟩]⟩]).1,
    (csv_one_row_per_fetched_record [⟨"w4", 1, scoreHalf,
      [⟨some "cw", scoreHalf, "p", "s", "t", "d"⟩]⟩]).2
      _ (by with_unfolding_all decide)⟩

/-- C6: the PDF tier-distribution table has exactly one row per tier
label, in the fixed label order, and each tier's cell lists each query
at most once — exactly the distinct queries having at least one record
whose score classifies into that tier. -/
theorem tierRows_one_row_per_tier_distinct_queries (data : List LowRelevanceSummary) :
    (tierRows data).map Prod.fst = tierLabels ∧
    tierLabels.Nodup ∧
    ∀ t cell, (t, cell) ∈ tierRows data →
      cell.Nodup ∧
      ∀ q, (q ∈ cell ↔
        ∃ r ∈ flattenPairs data, r.query = q ∧ classify r.detail.relevance_score = t) := by
  refine ⟨by simp [tierRows, List.map_map, Function.comp_def], by decide, ?_⟩
  intro t cell hmem
  rw [tierRows, List.mem_map] at hmem
  obtain ⟨t', _, heq⟩ := hmem
  injection heq with h1 h2
  subst h1
  subst h2
  refine ⟨nodup_dedupFirst _, fun q => ?_⟩
  rw [tierCell, mem_dedupFirst, List.mem_map]
  constructor
  · rintro ⟨r, hrf, rfl⟩
    rw [List.mem_filter] at hrf
    exact ⟨r, hrf.1, rfl, of_decide_eq_true hrf.2⟩
  · rintro ⟨r, hr, rfl, hcl⟩
    exact ⟨r, List.mem_filter.mpr ⟨hr, decide_eq_true hcl⟩, rfl⟩

/-- Witness for `tierRows_one_row_per_tier_distinct_queries`: on a
concrete one-record input, the query lands in the `0.5 - 0.6` cell. -/
theorem tierRows_one_row_per_tier_distinct_queries_witness :
    ("w5" : String) ∈ tierCell TierLabel.tier05to06
      (flattenPairs [⟨"w5", 1, scoreHalf, [⟨some "cw", scoreHalf, "p", "s", "t", "d"⟩]⟩]) :=
  (((tierRows_one_row_per_tier_distinct_queries
      [⟨"w5", 1, scoreHalf, [⟨some "cw", scoreHalf, "p", "s", "t", "d"⟩]⟩]).2.2
    TierLabel.tier05to06
    (tierCell TierLabel.tier05to06
      (flattenPairs [⟨"w5", 1, scoreHalf, [⟨some "cw", scoreHalf, "p", "s", "t", "d"⟩]⟩]))
    (by with_unfolding_all decide)).2 "w5").mpr
    ⟨⟨"w5", ⟨some "cw", scoreHalf, "p", "s", "t", "d"⟩⟩,
      by with_unfolding_all decide, rfl, by with_unfolding_all decide⟩

/-- C9 (counterexample): a record whose dedup key string equals an
earlier record's key — the scores `0.59996` and `0.60004` both print as
`0.6000` — is dropped by the deduplication, yet removing it from the
input changes the top tier's distinct-query set, because the two scores
classify into different tiers. -/
theorem tier_distribution_duplicate_removal_counterexample :
    answerKey ⟨"q", ⟨some "c", scoreJustAbove06, "p", "s", "t", "d2"⟩⟩ =
      answerKey ⟨"q", ⟨some "c", scoreJustBelow06, "p", "s", "t", "d1"⟩⟩ ∧
    dedupe [⟨"q", ⟨some "c", scoreJustBelow06, "p", "s", "t", "d1"⟩⟩,
        ⟨"q", ⟨some "c", scoreJustAbove06, "p", "s", "t", "d2"⟩⟩] =
      [⟨"q", ⟨some "c", scoreJustBelow06, "p", "s", "t", "d1"⟩⟩] ∧
    tierCell TierLabel.tier06to065
        [⟨"q", ⟨some "c", scoreJustBelow06, "p", "s", "t", "d1"⟩⟩,
          ⟨"q", ⟨some "c", scoreJustAbove06, "p", "s", "t", "d2"⟩⟩] ≠
      tierCell TierLabel.tier06to065
        [⟨"q", ⟨some "c", scoreJustBelow06, "p", "s", "t", "d1"⟩⟩] := by
  have h1 : toFixed4 scoreJustBelow06 = "0.6000" := by decide
  have h2 : toFixed4 scoreJustAbove06 = "0.6000" := by decide
  have hkey : answerKey ⟨"q", ⟨some "c", scoreJustAbove06, "p", "s", "t", "d2"⟩⟩ =
      answerKey ⟨"q", ⟨some "c", scoreJustBelow06, "p", "s", "t", "d1"⟩⟩ := by
    simp [answerKey, contentKeyPart, h1, h2]
  have hb : scoreJustBelow06 = (14999 : ℚ) / 25000 := by
    rw [scoreJustBelow06, Rat.mk'_eq_divInt, Rat.divInt_eq_div]
    norm_num
  have ha : scoreJustAbove06 = (15001 : ℚ) / 25000 := by
    rw [scoreJustAbove06, Rat.mk'_eq_divInt, Rat.divInt_eq_div]
    norm_num
  have hcl1 : classify scoreJustBelow06 = TierLabel.tier05to06 := by
    rw [hb]
    unfold classify
    rw [if_neg (by norm_num), if_pos (by norm_num)]
  have hcl2 : classify scoreJustAbove06 = TierLabel.tier06to065 := by
    rw [ha]
    unfold classify
    rw [if_pos (by norm_num)]
  refine ⟨hkey, ?_, ?_⟩
  · simp [dedupe, dedupeGo, hkey]
  · have e1 : tierCell TierLabel.tier06to065
        [⟨"q", ⟨some "c", scoreJustBelow06, "p", "s", "t", "d1"⟩⟩,
          ⟨"q", ⟨some "c", scoreJustAbove06, "p", "s", "t", "d2"⟩⟩] = ["q"] := by
      simp [tierCell, hcl1, hcl2, dedupFirst, insertNew]
    have e2 : tierCell TierLabel.tier06to065
        [⟨"q", ⟨some "c", scoreJustBelow06, "p", "s", "t", "d1"⟩⟩] = [] := by
      simp [tierCell, hcl1, dedupFirst]
    rw [e1, e2]
    simp

/-- C9 (amended): the tier-distribution section is computed over all
fetched records, duplicates included; removing a record that has an
earlier record with the same query and the same tier never changes any
per-tier distinct-query set. A duplicate-key record qualifies only when
its exact score lies in the same tier as the kept record's: the
4-decimal rounding inside the key can identify records that straddle a
tier boundary, and removing such a duplicate does change the sets. -/
theorem tierCell_remove_redundant_same_tier_record (l1 l2 : List KeyedRecord)
    (r : KeyedRecord)
    (h : ∃ r' ∈ l1, r'.query = r.query ∧
      classify r'.detail.relevance_score = classify r.detail.relevance_score) :
    ∀ t, tierCell t (l1 ++ r :: l2) = tierCell t (l1 ++ l2) := by
  intro t
  obtain ⟨r', hr', hq, hcl⟩ := h
  unfold tierCell
  rw [List.filter_append, List.filter_append, List.filter_cons]
  by_cases hc : classify r.detail.relevance_score = t
  · rw [if_pos (by simp [hc])]
    rw [List.map_append, List.map_append, List.map_cons]
    apply dedupFirst_append_cons_of_mem
    refine List.mem_map.mpr ⟨r', List.mem_filter.mpr ⟨hr', ?_⟩, hq⟩
    simp [hcl, hc]
  · rw [if_neg (by simp [hc])]

/-- Witness for `tierCell_remove_redundant_same_tier_record`: dropping
a same-query, same-score record leaves the `0.5 - 0.6` cell unchanged. -/
theorem tierCell_remove_redundant_same_tier_record_witness :
    tierCell TierLabel.tier05to06
        ([⟨"w6", ⟨some "cw", scoreHalf, "p", "s", "t", "d1"⟩⟩] ++
          ⟨"w6", ⟨some "cw", scoreHalf, "p", "s", "t", "d2"⟩⟩ :: []) =
      tierCell TierLabel.tier05to06
        ([⟨"w6", ⟨some "cw", scoreHalf, "p", "s", "t", "d1"⟩⟩] ++ []) :=
  tierCell_remove_redundant_same_tier_record
    [⟨"w6", ⟨some "cw", scoreHalf, "p", "s", "t", "d1"⟩⟩] []
    ⟨"w6", ⟨some "cw", scoreHalf, "p", "s", "t", "d2"⟩⟩
    ⟨⟨"w6", ⟨some "cw", scoreHalf, "p", "s", "t", "d1"⟩⟩, by simp, rfl, rfl⟩
    TierLabel.tier05to06

end FlexrFeedback
